import Mathlib

/-!
Verification development for the `engine_bibtex` crate (`src/crates/engine_bibtex/src/lib.rs`).

The file shallowly embeds the run-level driver of the crate: the outcome
reporting of `BibtexEngine::process`, the error-path handling of
`bibtex_main`, the initialization function `get_the_top_level_aux_file_name`,
the compile-time capacity assertions, the configuration builder, and the
`reset_all` state reset.  The crate's submodules (`pool`, `hash`, `history`,
`log`, ...) are not part of the provided sources; where a claim depends on
them the corresponding definition is modelled from the specification and its
doc comment says so.
-/

/-- Run-level history of a bibtex run.  The `History` enum lives in the crate's
`history` module (not among the provided sources); its four variants are fully
determined by the exhaustive `match` statements in `lib.rs`
(`BibtexEngine::process` and `bibtex_main`). -/
inductive History where
  | Spotless
  | WarningIssued
  | ErrorIssued
  | FatalError
deriving DecidableEq, Repr

/-- Embeds `enum BibtexError { Fatal, Recover, NoBst }` from `lib.rs`. -/
inductive BibtexError where
  | Fatal
  | Recover
  | NoBst
deriving DecidableEq, Repr

/-- Embeds `enum BibtexOutcome { Spotless = 0, Warnings = 1, Errors = 2 }`
from `lib.rs`. -/
inductive BibtexOutcome where
  | Spotless
  | Warnings
  | Errors
deriving DecidableEq, Repr

/-- The explicit discriminant of each `BibtexOutcome` variant (`= 0`, `= 1`,
`= 2` in the Rust source).  Rust's `derive(Ord)` orders fieldless enums by
discriminant, so this function carries the severity ranking of outcomes. -/
def outcomeRank : BibtexOutcome → Nat
  | BibtexOutcome.Spotless => 0
  | BibtexOutcome.Warnings => 1
  | BibtexOutcome.Errors => 2

/-- The error message produced by `BibtexEngine::process` for a fatal run
(`anyhow!("unspecified fatal bibtex error")` in `lib.rs`). -/
def unspecifiedFatalMsg : String := "unspecified fatal bibtex error"

/-- Embeds the `match hist` expression of `BibtexEngine::process` in `lib.rs`:
the mapping from the final run history returned by `bibtex_main` to the
`Result<BibtexOutcome>` given to the caller. -/
def processOutcome : History → Except String BibtexOutcome
  | History.Spotless => Except.ok BibtexOutcome.Spotless
  | History.WarningIssued => Except.ok BibtexOutcome.Warnings
  | History.ErrorIssued => Except.ok BibtexOutcome.Errors
  | History.FatalError => Except.error unspecifiedFatalMsg

/-- Embeds `enum StrIlk` from `lib.rs`: the role tag attached to each hash
table request. -/
inductive StrIlk where
  | Text
  | Integer
  | AuxCommand
  | AuxFile
  | BstCommand
  | BstFile
  | BibFile
  | FileExt
  | Cite
  | LcCite
  | BstFn
  | BibCommand
  | Macro
  | ControlSeq
deriving DecidableEq, Repr

/-- Embeds `struct LookupRes { loc, exists }` from `lib.rs`.  The Rust field
`exists` is a reserved word in Lean and is spelled `exists'` here. -/
structure LookupRes where
  loc : Nat
  exists' : Bool
deriving DecidableEq, Repr

/-- One occupied hash-table slot: the key bytes, the role tag, and the string
number stored for the key.  Modelled from the spec: the `hash` module (hash
entries keyed by byte content plus ilk) is not among the provided sources. -/
structure HEntry where
  key : List Nat
  ilk : StrIlk
  strNumber : Nat
deriving DecidableEq, Repr

/-- Failure modes of an interning request.  `capacity` is the string-capacity
ceiling of the spec; `tableFull` is probing failure (no free slot). -/
inductive PoolErr where
  | capacity
  | tableFull
deriving DecidableEq, Repr

/-- Combined string-pool / hash-table state.  Modelled from the spec: the
`pool::StringPool` and `hash::HashData` modules are not among the provided
sources.  `slots` is the fixed bucket array (`HASH_SIZE` buckets), `strPtr`
the next string id, `maxStrings` the `MAX_STRINGS` ceiling and `hashPrime`
the modulus used to reduce the hash. -/
structure PoolHash where
  slots : List (Option HEntry)
  strPtr : Nat
  maxStrings : Nat
  hashPrime : Nat
deriving DecidableEq, Repr

/-- Hash of a byte sequence, reduced modulo the fixed prime.  Modelled from
the spec: "compute a hash of the byte sequence, reduce modulo the fixed
bucket count". -/
def strHash (key : List Nat) (m : Nat) : Nat :=
  key.foldl (fun h c => (2 * h + c) % m) 0

/-- Forward probing through the bucket array, with explicit fuel.  Returns the
first slot that either holds the requested key and ilk (`true`) or is empty
(`false`).  Modelled from the spec: "probe forward on collision, comparing
stored byte spans for equality and ilk rules". -/
def probe (slots : List (Option HEntry)) (key : List Nat) (ilk : StrIlk) :
    Nat → Nat → Option (Nat × Bool)
  | 0, _ => none
  | fuel + 1, pos =>
    match slots[pos]? with
    | none => none
    | some none => some (pos, false)
    | some (some e) =>
      if e.key = key ∧ e.ilk = ilk then some (pos, true)
      else probe slots key ilk fuel ((pos + 1) % slots.length)

/-- Interning.  Modelled from the spec contract
`intern(bytes, ilk) -> (id, already_existed)`: on a repeat the existing slot
is returned with `exists' = true`; on a fresh string a new id (`strPtr`) is
assigned unless the string-capacity ceiling is reached, in which case the
request fails and the pool is left unchanged.  This models
`StringPool::lookup_str_insert` of the (missing) `pool` module. -/
def lookup_str_insert (p : PoolHash) (key : List Nat) (ilk : StrIlk) :
    PoolHash × Except PoolErr LookupRes :=
  match probe p.slots key ilk p.slots.length (strHash key p.hashPrime) with
  | none => (p, Except.error PoolErr.tableFull)
  | some (pos, true) => (p, Except.ok { loc := pos, exists' := true })
  | some (pos, false) =>
    if p.maxStrings ≤ p.strPtr then (p, Except.error PoolErr.capacity)
    else
      ({ p with
          slots := p.slots.set pos (some { key := key, ilk := ilk, strNumber := p.strPtr }),
          strPtr := p.strPtr + 1 },
        Except.ok { loc := pos, exists' := false })

/-- The string number stored at a hash location (models `hash.text(loc)`). -/
def hashText (p : PoolHash) (loc : Nat) : Option Nat :=
  match p.slots[loc]? with
  | some (some e) => some e.strNumber
  | _ => none

/-- Number of occupied slots of the bucket array. -/
def countOccupied (slots : List (Option HEntry)) : Nat :=
  slots.countP Option.isSome

/-- Decidable notion of a slot at which probing for `key`/`ilk` stops: the
slot is either empty or holds exactly this key and ilk. -/
def probeHit (slots : List (Option HEntry)) (key : List Nat) (ilk : StrIlk) (i : Nat) : Bool :=
  match slots[i]? with
  | some none => true
  | some (some e) => decide (e.key = key ∧ e.ilk = ilk)
  | none => false

/-- Which of the three files opened during initialization a diagnostic refers
to: the `.aux` input, the `.blg` log, or the `.bbl` result file. -/
inductive FileKind where
  | auxFile
  | logFile
  | bblFile
deriving DecidableEq, Repr

/-- Diagnostics emitted by `get_the_top_level_aux_file_name` in `lib.rs`:
`sam_wrong_file_name_print` on an open failure, and the
"Already encountered auxiliary file" message followed by `print_confusion`
on a repeated aux file. -/
inductive Msg where
  | wrongFileName (f : FileKind)
  | alreadyEncounteredAux
  | confusionMsg
deriving DecidableEq, Repr

/-- Result of the three file-service open calls made during initialization.
The opens themselves are external (`PeekableInput::open`, `init_log_file`,
`ttbc_output_open`), so their success is an input of the model. -/
structure FileEnv where
  auxOpenOk : Bool
  logOpenOk : Bool
  bblOpenOk : Bool
deriving DecidableEq, Repr

/-- Return value of `get_the_top_level_aux_file_name`: the updated pool, the
emitted diagnostics, and the `Result<i32, BibtexError>` return value. -/
structure TopLevelRes where
  pool : PoolHash
  msgs : List Msg
  res : Except BibtexError Int
deriving Repr

/-- Embeds `get_the_top_level_aux_file_name` from `lib.rs`.  The aux file, the
log file and the result (`.bbl`) file are opened in this order; each open
failure prints a wrong-file-name message and returns `Ok(1)`.  Then the full
aux name is interned under `StrIlk::AuxFile`: a failed intern is
`Err(BibtexError::Fatal)`, an already-present name logs
"Already encountered auxiliary file" plus `print_confusion` and is also
`Err(BibtexError::Fatal)`; otherwise the function returns `Ok(0)`.
(The `aux` module bookkeeping `set_ptr`/`set_file_at_ptr`/`set_at_ptr` touches
the missing `auxi` module and carries no information used by any claim, so it
is not tracked here.) -/
def get_the_top_level_aux_file_name (fe : FileEnv) (p : PoolHash) (auxName : List Nat) :
    TopLevelRes :=
  if fe.auxOpenOk = false then
    { pool := p, msgs := [Msg.wrongFileName FileKind.auxFile], res := Except.ok 1 }
  else if fe.logOpenOk = false then
    { pool := p, msgs := [Msg.wrongFileName FileKind.logFile], res := Except.ok 1 }
  else if fe.bblOpenOk = false then
    { pool := p, msgs := [Msg.wrongFileName FileKind.bblFile], res := Except.ok 1 }
  else
    match lookup_str_insert p auxName StrIlk.AuxFile with
    | (p', Except.error _) => { pool := p', msgs := [], res := Except.error BibtexError.Fatal }
    | (p', Except.ok r) =>
      if r.exists' then
        { pool := p',
          msgs := [Msg.alreadyEncounteredAux, Msg.confusionMsg],
          res := Except.error BibtexError.Fatal }
      else
        { pool := p', msgs := [], res := Except.ok 0 }

/-- Environment of one engine run: everything `inner_bibtex_main` consumes
that is produced by external collaborators or by the crate modules missing
from the provided sources.  `predef` is the pool produced by
`pre_def_certain_strings` (missing `pool` module), `auxLoop` the outcome of
the aux-command loop plus `last_check_for_aux_errors`, `bstFound` whether a
style file was seen (`ctx.bst_str != 0`), `bstLoop` the outcome of the bst
command loop, and `finalHistory`/`errCount` the state of the (missing)
`history` module at the end of the run. -/
structure Env where
  stdoutOk : Bool
  files : FileEnv
  predef : Except BibtexError PoolHash
  auxName : List Nat
  auxLoop : Except BibtexError Unit
  bstFound : Bool
  bstLoop : Except BibtexError Unit
  finalHistory : History
  errCount : Nat

/-- Embeds `inner_bibtex_main` from `lib.rs`, returning the diagnostics of the
initialization phase and the `Result<History, BibtexError>` value:
a standard-output failure or a nonzero code from `initialize` (which resets
pool pointers and engine flags and then calls `pre_def_certain_strings` and
`get_the_top_level_aux_file_name`) yields `Ok(History::FatalError)`; errors of
the aux loop, the missing-bst check (`Err(BibtexError::NoBst)`) and the bst
loop propagate; a full pass returns `Ok(History::Spotless)`. -/
def inner_main (e : Env) : List Msg × Except BibtexError History :=
  if e.stdoutOk = false then ([], Except.ok History.FatalError)
  else
    match e.predef with
    | Except.error err => ([], Except.error err)
    | Except.ok pool =>
      let t := get_the_top_level_aux_file_name e.files pool e.auxName
      match t.res with
      | Except.error err => (t.msgs, Except.error err)
      | Except.ok n =>
        if n ≠ 0 then (t.msgs, Except.ok History.FatalError)
        else
          match e.auxLoop with
          | Except.error err => (t.msgs, Except.error err)
          | Except.ok _ =>
            if e.bstFound = false then (t.msgs, Except.error BibtexError.NoBst)
            else
              match e.bstLoop with
              | Except.error err => (t.msgs, Except.error err)
              | Except.ok _ => (t.msgs, Except.ok History.Spotless)

/-- File-close actions performed on the error paths of `bibtex_main`
(`peekable_close` on the style-program input, `ttbc_output_close` on the
result file). -/
inductive CloseAction where
  | closeBst
  | closeBbl
deriving DecidableEq, Repr

/-- Log line for exactly one warning, from `bibtex_main` in `lib.rs`. -/
def oneWarningLine : String := "(There was 1 warning)\n"

/-- Log line for `n` warnings, `n` not 1, from `bibtex_main` in `lib.rs`. -/
def manyWarningsLine (n : Nat) : String :=
  "(There were " ++ Nat.repr n ++ " warnings)\n"

/-- Log line for exactly one error message, from `bibtex_main` in `lib.rs`. -/
def oneErrorLine : String := "(There was 1 error message)\n"

/-- Log line for `n` error messages, `n` not 1, from `bibtex_main`. -/
def manyErrorsLine (n : Nat) : String :=
  "(There were " ++ Nat.repr n ++ " error messages)\n"

/-- Log line written for a fatal run, from `bibtex_main` in `lib.rs`. -/
def fatalLine : String := "(That was a fatal error)\n"

/-- Embeds the `match get_history()` summary block at the end of `bibtex_main`
in `lib.rs`: nothing for a spotless history, one singular/plural count line
for warnings or errors, and the fatal-error line for a fatal history. -/
def summaryLines : History → Nat → List String
  | History.Spotless, _ => []
  | History.WarningIssued, n => if n = 1 then [oneWarningLine] else [manyWarningsLine n]
  | History.ErrorIssued, n => if n = 1 then [oneErrorLine] else [manyErrorsLine n]
  | History.FatalError, _ => [fatalLine]

/-- Observable result of `bibtex_main`: the returned history, the file-close
actions performed on the error paths (they happen before the summary match),
the initialization diagnostics, the end-of-run summary lines, and whether the
run reached `bib_close_log` (false exactly on the early `return hist` path
for a non-spotless `Ok` from `inner_bibtex_main`). -/
structure MainRes where
  ret : History
  closes : List CloseAction
  msgs : List Msg
  summary : List String
  logClosed : Bool
deriving DecidableEq, Repr

/-- Embeds `bibtex_main` from `lib.rs`: after `reset_all`, the result of
`inner_bibtex_main` is dispatched — `Ok(Spotless)` falls through,
`Ok(hist)` with another history returns `hist` immediately (no summary, no
`bib_close_log`), `Err(Recover)` closes the bst and bbl files,
`Err(NoBst)` closes the bbl file, `Err(Fatal)` closes nothing; every
non-early-return path then writes the summary lines for `get_history()` and
returns `get_history()`. -/
def bibtex_main_model (e : Env) : MainRes :=
  match inner_main e with
  | (msgs, Except.ok History.Spotless) =>
    { ret := e.finalHistory, closes := [], msgs := msgs,
      summary := summaryLines e.finalHistory e.errCount, logClosed := true }
  | (msgs, Except.ok h) =>
    { ret := h, closes := [], msgs := msgs, summary := [], logClosed := false }
  | (msgs, Except.error BibtexError.Recover) =>
    { ret := e.finalHistory, closes := [CloseAction.closeBst, CloseAction.closeBbl],
      msgs := msgs, summary := summaryLines e.finalHistory e.errCount, logClosed := true }
  | (msgs, Except.error BibtexError.NoBst) =>
    { ret := e.finalHistory, closes := [CloseAction.closeBbl], msgs := msgs,
      summary := summaryLines e.finalHistory e.errCount, logClosed := true }
  | (msgs, Except.error BibtexError.Fatal) =>
    { ret := e.finalHistory, closes := [], msgs := msgs,
      summary := summaryLines e.finalHistory e.errCount, logClosed := true }

/-- Embeds `BibtexEngine::process` from `lib.rs` for a run in environment `e`:
the history returned by `bibtex_main` is mapped through the outcome match. -/
def process_model (e : Env) : Except String BibtexOutcome :=
  processOutcome (bibtex_main_model e).ret

/-- The capacity constants whose relations are checked by the compile-time
`const _: () = assert!(...)` block of `lib.rs`.  The concrete values live in
the crate's `pool`, `hash`, `buffer` and `cite` modules, which are not among
the provided sources, so the constants are kept abstract here. -/
structure Capacities where
  HASH_PRIME : Nat
  HASH_SIZE : Nat
  MAX_STRINGS : Nat
  MAX_CITES : Nat
  MAX_PRINT_LINE : Nat
  MIN_PRINT_LINE : Nat
  BUF_SIZE : Nat
deriving DecidableEq, Repr

/-- Embeds the compile-time assertion block of `lib.rs` (the former "bad"
checks): the crate only compiles when all seven relations hold. -/
def constAssertions (c : Capacities) : Prop :=
  c.HASH_PRIME ≥ 128 ∧
  c.MAX_PRINT_LINE > c.MIN_PRINT_LINE ∧
  c.MIN_PRINT_LINE ≥ 3 ∧
  c.MAX_PRINT_LINE < c.BUF_SIZE + 1 ∧
  c.HASH_PRIME ≤ c.HASH_SIZE ∧
  c.MAX_STRINGS ≤ c.HASH_SIZE ∧
  c.MAX_CITES ≤ c.MAX_STRINGS

instance (c : Capacities) : Decidable (constAssertions c) := by
  unfold constAssertions
  infer_instance

/-- Module-level state of the crate, one field per module reset by
`reset_all` in `lib.rs` (the `history` module owns both the run history and
the error count).  The modules' internal representations are not among the
provided sources, so each is modelled from the spec as its visible contents;
the claims about `reset_all` concern only that every module is reset to its
empty/default value. -/
structure GlobalState where
  logState : List String
  poolState : List Nat
  historyState : History
  errCountState : Nat
  bufferState : List Nat
  citeState : List Nat
  auxState : List Nat
  bibState : List Nat
  hashState : List (Option HEntry)
  otherState : List Nat
  entryState : List Nat
  globalState : List Nat
deriving DecidableEq, Repr

/-- Modelled from the spec: `log::reset` clears the diagnostic log state. -/
def log_reset (s : GlobalState) : GlobalState := { s with logState := [] }

/-- Modelled from the spec: `pool::reset` empties the string pool buffer. -/
def pool_reset (s : GlobalState) : GlobalState := { s with poolState := [] }

/-- Modelled from the spec: `history::reset` returns the run history to
spotless and the error count to zero. -/
def history_reset (s : GlobalState) : GlobalState :=
  { s with historyState := History.Spotless, errCountState := 0 }

/-- Modelled from the spec: `buffer::reset` empties the global buffers. -/
def buffer_reset (s : GlobalState) : GlobalState := { s with bufferState := [] }

/-- Modelled from the spec: `cite::reset` empties the citation data. -/
def cite_reset (s : GlobalState) : GlobalState := { s with citeState := [] }

/-- Modelled from the spec: `auxi::reset` empties the aux data. -/
def auxi_reset (s : GlobalState) : GlobalState := { s with auxState := [] }

/-- Modelled from the spec: `bibs::reset` empties the bib data. -/
def bibs_reset (s : GlobalState) : GlobalState := { s with bibState := [] }

/-- Modelled from the spec: `hash::reset` empties the hash table. -/
def hash_reset (s : GlobalState) : GlobalState := { s with hashState := [] }

/-- Modelled from the spec: `other::reset` empties the other data. -/
def other_reset (s : GlobalState) : GlobalState := { s with otherState := [] }

/-- Modelled from the spec: `entries::reset` empties the entry data. -/
def entries_reset (s : GlobalState) : GlobalState := { s with entryState := [] }

/-- Modelled from the spec: `global::reset` empties the VM globals. -/
def global_reset (s : GlobalState) : GlobalState := { s with globalState := [] }

/-- Embeds `reset_all` from `lib.rs`: the eleven module resets applied in
source order (log, pool, history, buffer, cite, auxi, bibs, hash, other,
entries, global).  `bibtex_main` calls this before any other processing. -/
def reset_all (s : GlobalState) : GlobalState :=
  global_reset (entries_reset (other_reset (hash_reset (bibs_reset (auxi_reset
    (cite_reset (buffer_reset (history_reset (pool_reset (log_reset s))))))))))

/-- The empty/default module-level state every run starts from. -/
def emptyGlobalState : GlobalState :=
  { logState := [], poolState := [], historyState := History.Spotless,
    errCountState := 0, bufferState := [], citeState := [], auxState := [],
    bibState := [], hashState := [], otherState := [], entryState := [],
    globalState := [] }

/-- Embeds `struct BibtexConfig { min_crossrefs: u32, verbose: bool }` from
`lib.rs`. -/
structure BibtexConfig where
  min_crossrefs : Nat
  verbose : Bool
deriving DecidableEq, Repr

/-- Embeds `impl Default for BibtexConfig` from `lib.rs`. -/
def BibtexConfig.default : BibtexConfig :=
  { min_crossrefs := 2, verbose := false }

/-- Embeds `struct BibtexEngine { config: BibtexConfig }` from `lib.rs`. -/
structure BibtexEngine where
  config : BibtexConfig
deriving DecidableEq, Repr

/-- Embeds the `derive(Default)` engine value: its config is the default
config. -/
def BibtexEngine.default : BibtexEngine :=
  { config := BibtexConfig.default }

/-- Embeds the `BibtexEngine::min_crossrefs` builder method from `lib.rs`:
`self.config.min_crossrefs = value`. -/
def BibtexEngine.min_crossrefs (en : BibtexEngine) (value : Nat) : BibtexEngine :=
  { en with config := { en.config with min_crossrefs := value } }

/-- Example pool: three empty buckets, next string id 1, string capacity 2,
hash modulus 2 (used by witnesses). -/
def pExFresh : PoolHash :=
  { slots := [none, none, none], strPtr := 1, maxStrings := 2, hashPrime := 2 }

/-- The pool `pExFresh` after interning the byte string `[97]` under the
text ilk. -/
def pExIns : PoolHash :=
  { slots := [none, some { key := [97], ilk := StrIlk.Text, strNumber := 1 }, none],
    strPtr := 2, maxStrings := 2, hashPrime := 2 }

/-- Example pool that already holds the byte string `[97]` under the
aux-file ilk (used by the duplicate-aux-file witness). -/
def pExAux : PoolHash :=
  { slots := [none, some { key := [97], ilk := StrIlk.AuxFile, strNumber := 1 }, none],
    strPtr := 2, maxStrings := 2, hashPrime := 2 }

/-- Example pool at its string-capacity ceiling: 131 empty buckets but
`strPtr` already equal to `maxStrings` (used by the capacity witnesses). -/
def pExFull : PoolHash :=
  { slots := List.replicate 131 none, strPtr := 4, maxStrings := 4, hashPrime := 131 }

/-- Example capacity constants satisfying every compile-time assertion of
`lib.rs`, matching `pExFull`. -/
def cEx : Capacities :=
  { HASH_PRIME := 131, HASH_SIZE := 131, MAX_STRINGS := 4, MAX_CITES := 3,
    MAX_PRINT_LINE := 10, MIN_PRINT_LINE := 3, BUF_SIZE := 100 }

/-- Example environment of a run that goes through cleanly: standard output
opens, all three files open, the aux name `[97]` is fresh, both command loops
succeed, and the final history is spotless. -/
def envSpotless : Env :=
  { stdoutOk := true, files := { auxOpenOk := true, logOpenOk := true, bblOpenOk := true },
    predef := Except.ok pExFresh, auxName := [97], auxLoop := Except.ok (),
    bstFound := true, bstLoop := Except.ok (), finalHistory := History.Spotless,
    errCount := 0 }

/-- Example environment in which no style file was seen, so
`inner_bibtex_main` fails with `BibtexError::NoBst`. -/
def envNoBst : Env :=
  { envSpotless with bstFound := false }

/-- Example environment in which the bst command loop fails with
`BibtexError::Recover`. -/
def envRecover : Env :=
  { envSpotless with bstLoop := Except.error BibtexError.Recover }

/-- Example environment in which the aux file fails to open. -/
def envAuxFail : Env :=
  { envSpotless with
      files := { auxOpenOk := false, logOpenOk := true, bblOpenOk := true },
      finalHistory := History.FatalError }

/-- Example environment of a clean run whose final history records two
warnings. -/
def envWarn : Env :=
  { envSpotless with finalHistory := History.WarningIssued, errCount := 2 }

/-- Example environment in which interning the aux file name hits the
string-capacity ceiling. -/
def envCapacity : Env :=
  { envSpotless with predef := Except.ok pExFull }

/-- The first file-open check of `get_the_top_level_aux_file_name` that
fails, following the order of the checks in `lib.rs` (aux input, then log,
then result file); `none` when all three opens succeed. -/
def openFailure (fe : FileEnv) : Option FileKind :=
  if fe.auxOpenOk = false then some FileKind.auxFile
  else if fe.logOpenOk = false then some FileKind.logFile
  else if fe.bblOpenOk = false then some FileKind.bblFile
  else none

deriving instance DecidableEq for Except

set_option maxRecDepth 8000

/-- The reduced hash value stays below the modulus. -/
theorem strHash_lt (key : List Nat) (m : Nat) (hm : 0 < m) : strHash key m < m := by
  unfold strHash
  suffices h : ∀ (l : List Nat) (acc : Nat), acc < m →
      l.foldl (fun h c => (2 * h + c) % m) acc < m by
    exact h key 0 hm
  intro l
  induction l with
  | nil => intro acc hacc; simpa using hacc
  | cons c rest ih =>
    intro acc hacc
    simpa using ih _ (Nat.mod_lt _ hm)

/-- An empty slot is a probe hit for any request. -/
theorem probeHit_of_empty (slots : List (Option HEntry)) (key : List Nat) (ilk : StrIlk)
    (i : Nat) (h : slots[i]? = some none) : probeHit slots key ilk i = true := by
  simp [probeHit, h]

/-- Probing succeeds as soon as some slot within the fuel bound, along the
forward probe sequence, is a hit. -/
theorem probe_isSome_of_hit (slots : List (Option HEntry)) (key : List Nat) (ilk : StrIlk) :
    ∀ (fuel start : Nat), start < slots.length →
      (∃ k, k < fuel ∧ probeHit slots key ilk ((start + k) % slots.length) = true) →
      (probe slots key ilk fuel start).isSome = true := by
  intro fuel
  induction fuel with
  | zero =>
    rintro start _ ⟨k, hk, _⟩
    omega
  | succ fuel ih =>
    rintro start hstart ⟨k, hk, hhit⟩
    have hn : 0 < slots.length := Nat.lt_of_le_of_lt (Nat.zero_le _) hstart
    have hget : slots[start]? = some slots[start] := List.getElem?_eq_getElem hstart
    cases hv : slots[start] with
    | none => simp [probe, hget, hv]
    | some e =>
      by_cases hke : e.key = key ∧ e.ilk = ilk
      · simp [probe, hget, hv, hke]
      · have hk0 : k ≠ 0 := by
          intro h0
          subst h0
          rw [Nat.add_zero, Nat.mod_eq_of_lt hstart] at hhit
          rw [probeHit, hget, hv] at hhit
          simp [hke] at hhit
        obtain ⟨j, rfl⟩ : ∃ j, k = j + 1 := ⟨k - 1, by omega⟩
        have hstart' : (start + 1) % slots.length < slots.length := Nat.mod_lt _ hn
        have hhit' : probeHit slots key ilk
            (((start + 1) % slots.length + j) % slots.length) = true := by
          have harith : start + 1 + j = start + (j + 1) := by omega
          rw [Nat.mod_add_mod, harith]
          exact hhit
        have hrec := ih ((start + 1) % slots.length) hstart' ⟨j, by omega, hhit'⟩
        simpa [probe, hget, hv, hke] using hrec

/-- Every index below the bucket count is reached by the forward probe
sequence within one full cycle. -/
theorem exists_probe_index (n start i : Nat) (hs : start < n) (hi : i < n) :
    ∃ k, k < n ∧ (start + k) % n = i := by
  rcases le_or_lt start i with h | h
  · refine ⟨i - start, by omega, ?_⟩
    have harith : start + (i - start) = i := by omega
    rw [harith, Nat.mod_eq_of_lt hi]
  · refine ⟨i + n - start, by omega, ?_⟩
    have harith : start + (i + n - start) = i + n := by omega
    rw [harith, Nat.add_mod_right, Nat.mod_eq_of_lt hi]

/-- A bucket array with fewer occupied slots than buckets has an empty slot. -/
theorem exists_empty_slot (slots : List (Option HEntry))
    (h : countOccupied slots < slots.length) :
    ∃ i, i < slots.length ∧ slots[i]? = some none := by
  by_contra hc
  push_neg at hc
  have hall : ∀ a ∈ slots, a.isSome = true := by
    intro a ha
    obtain ⟨i, hlt, heq⟩ := List.mem_iff_getElem.mp ha
    cases a with
    | some e => rfl
    | none =>
      have hnone : slots[i]? = some none := by
        rw [List.getElem?_eq_getElem hlt, heq]
      exact absurd hnone (hc i hlt)
  have hlen := List.countP_eq_length.mpr hall
  unfold countOccupied at h
  omega

/-- A probe that reports a fresh location stopped at an empty slot. -/
theorem probe_false_empty (slots : List (Option HEntry)) (key : List Nat) (ilk : StrIlk) :
    ∀ (fuel start pos : Nat),
      probe slots key ilk fuel start = some (pos, false) → slots[pos]? = some none := by
  intro fuel
  induction fuel with
  | zero => intro start pos h; simp [probe] at h
  | succ fuel ih =>
    intro start pos h
    rw [probe] at h
    split at h
    next heq => exact absurd h (by simp)
    next heq =>
      simp only [Option.some.injEq, Prod.mk.injEq] at h
      obtain ⟨rfl, -⟩ := h
      exact heq
    next e heq =>
      split at h
      next hke => simp at h
      next hke => exact ih _ _ h

/-- After storing a matching entry at the fresh location a probe reported,
the same probe sequence finds that location as an existing entry. -/
theorem probe_set_found (slots : List (Option HEntry)) (key : List Nat) (ilk : StrIlk)
    (v : Nat) :
    ∀ (fuel start pos : Nat),
      probe slots key ilk fuel start = some (pos, false) →
      probe (slots.set pos (some { key := key, ilk := ilk, strNumber := v }))
          key ilk fuel start = some (pos, true) := by
  intro fuel
  induction fuel with
  | zero => intro start pos h; simp [probe] at h
  | succ fuel ih =>
    intro start pos h
    have hempty : slots[pos]? = some none := probe_false_empty slots key ilk (fuel + 1) start pos h
    have hposlt : pos < slots.length := by
      by_contra hge
      push_neg at hge
      rw [List.getElem?_eq_none hge] at hempty
      exact Option.noConfusion hempty
    rw [probe] at h
    rw [probe]
    split at h
    next heq => exact absurd h (by simp)
    next heq =>
      simp only [Option.some.injEq, Prod.mk.injEq] at h
      obtain ⟨rfl, -⟩ := h
      rw [List.getElem?_set_self hposlt]
      simp
    next e heq =>
      split at h
      next hke => simp at h
      next hke =>
        have hne : pos ≠ start := by
          intro hps
          rw [hps, heq] at hempty
          simp at hempty
        have hrec := ih _ _ h
        simpa [List.getElem?_set_ne hne, heq, hke, List.length_set] using hrec

/-- C1: `BibtexEngine::process` maps the run's final history to its result:
spotless to `Ok(Spotless)`, warnings issued to `Ok(Warnings)`, errors issued
to `Ok(Errors)`, and a fatal run to an `Err` result; the three `Ok` outcomes
are ranked `Spotless < Warnings < Errors` by their discriminants. -/
theorem process_outcome_mapping :
    processOutcome History.Spotless = Except.ok BibtexOutcome.Spotless ∧
    processOutcome History.WarningIssued = Except.ok BibtexOutcome.Warnings ∧
    processOutcome History.ErrorIssued = Except.ok BibtexOutcome.Errors ∧
    processOutcome History.FatalError = Except.error unspecifiedFatalMsg ∧
    outcomeRank BibtexOutcome.Spotless < outcomeRank BibtexOutcome.Warnings ∧
    outcomeRank BibtexOutcome.Warnings < outcomeRank BibtexOutcome.Errors ∧
    ∀ (e : Env), process_model e = processOutcome (bibtex_main_model e).ret :=
  ⟨rfl, rfl, rfl, rfl, by decide, by decide, fun _ => rfl⟩

/-- C9: the default configuration has `min_crossrefs = 2` and `verbose =
false`, and the `min_crossrefs` builder method sets exactly the
`min_crossrefs` field, leaving the verbosity flag unchanged. -/
theorem config_default_and_builder :
    BibtexConfig.default.min_crossrefs = 2 ∧
    BibtexConfig.default.verbose = false ∧
    BibtexEngine.default.config = BibtexConfig.default ∧
    ∀ (en : BibtexEngine) (v : Nat),
      (BibtexEngine.min_crossrefs en v).config.min_crossrefs = v ∧
      (BibtexEngine.min_crossrefs en v).config.verbose = en.config.verbose :=
  ⟨rfl, rfl, rfl, fun _ _ => ⟨rfl, rfl⟩⟩

/-- C8: `reset_all` (the first action of `bibtex_main`) resets every module's
state — log, string pool, history, buffers, cites, aux data, bib data, hash
table, other data, entry data and VM globals — to its empty/default value, so
the state a run starts from is independent of any previous run. -/
theorem reset_all_clears_state :
    (∀ s : GlobalState, reset_all s = emptyGlobalState) ∧
    (∀ s₁ s₂ : GlobalState, reset_all s₁ = reset_all s₂) :=
  ⟨fun _ => rfl, fun _ _ => rfl⟩

/-- C2: when `inner_bibtex_main` fails with `NoBst` (no valid style program
found, before style processing), `bibtex_main` closes only the result file;
when it fails with `Recover` (during style processing), `bibtex_main` closes
the style-program input and then the result file; in both cases it goes on
to the end-of-run reporting. -/
theorem bibtex_main_error_close_paths (e₁ e₂ : Env)
    (h₁ : (inner_main e₁).2 = Except.error BibtexError.NoBst)
    (h₂ : (inner_main e₂).2 = Except.error BibtexError.Recover) :
    (bibtex_main_model e₁).closes = [CloseAction.closeBbl] ∧
    (bibtex_main_model e₁).logClosed = true ∧
    (bibtex_main_model e₂).closes = [CloseAction.closeBst, CloseAction.closeBbl] ∧
    (bibtex_main_model e₂).logClosed = true := by
  rcases hi1 : inner_main e₁ with ⟨m₁, r₁⟩
  rcases hi2 : inner_main e₂ with ⟨m₂, r₂⟩
  rw [hi1] at h₁
  rw [hi2] at h₂
  replace h₁ : r₁ = Except.error BibtexError.NoBst := h₁
  replace h₂ : r₂ = Except.error BibtexError.Recover := h₂
  subst h₁
  subst h₂
  simp [bibtex_main_model, hi1, hi2]

/-- Witness for C2: environments in which the run fails with `NoBst`
(respectively `Recover`), with the close lists computed. -/
theorem bibtex_main_error_close_paths_witness :
    (inner_main envNoBst).2 = Except.error BibtexError.NoBst ∧
    (inner_main envRecover).2 = Except.error BibtexError.Recover ∧
    (bibtex_main_model envNoBst).closes = [CloseAction.closeBbl] ∧
    (bibtex_main_model envNoBst).logClosed = true ∧
    (bibtex_main_model envRecover).closes = [CloseAction.closeBst, CloseAction.closeBbl] ∧
    (bibtex_main_model envRecover).logClosed = true := by
  have h₁ : (inner_main envNoBst).2 = Except.error BibtexError.NoBst := by decide
  have h₂ : (inner_main envRecover).2 = Except.error BibtexError.Recover := by decide
  have hmain := bibtex_main_error_close_paths envNoBst envRecover h₁ h₂
  exact ⟨h₁, h₂, hmain.1, hmain.2.1, hmain.2.2.1, hmain.2.2.2⟩

/-- Counterexample to C5 as stated: a spotless run is not fatal, yet the
summary block of `bibtex_main` appends no count line at all, so it is not
the case that every non-fatal run appends exactly one summary line. -/
theorem spotless_run_no_summary_line :
    (bibtex_main_model envSpotless).ret = History.Spotless ∧
    (bibtex_main_model envSpotless).logClosed = true ∧
    (bibtex_main_model envSpotless).summary = [] ∧
    ¬(bibtex_main_model envSpotless).summary.length = 1 := by decide

/-- C5 (amended): at the end of every run that reaches the end-of-run
reporting, the run's history is returned and the summary block appends no
line for a spotless history, exactly one count line with singular phrasing
for count one and plural phrasing otherwise for a warning or error history,
and exactly the distinct fatal-error line (no counts) for a fatal history. -/
theorem summary_line_shapes (e : Env)
    (hlc : (bibtex_main_model e).logClosed = true) :
    (bibtex_main_model e).ret = e.finalHistory ∧
    (e.finalHistory = History.Spotless → (bibtex_main_model e).summary = []) ∧
    (e.finalHistory = History.WarningIssued → e.errCount = 1 →
      (bibtex_main_model e).summary = [oneWarningLine]) ∧
    (e.finalHistory = History.WarningIssued → e.errCount ≠ 1 →
      (bibtex_main_model e).summary = [manyWarningsLine e.errCount]) ∧
    (e.finalHistory = History.ErrorIssued → e.errCount = 1 →
      (bibtex_main_model e).summary = [oneErrorLine]) ∧
    (e.finalHistory = History.ErrorIssued → e.errCount ≠ 1 →
      (bibtex_main_model e).summary = [manyErrorsLine e.errCount]) ∧
    (e.finalHistory = History.FatalError → (bibtex_main_model e).summary = [fatalLine]) ∧
    (e.finalHistory = History.WarningIssued ∨ e.finalHistory = History.ErrorIssued →
      (bibtex_main_model e).summary.length = 1) := by
  rcases hi : inner_main e with ⟨m, r⟩
  have hkey : (bibtex_main_model e).summary = summaryLines e.finalHistory e.errCount ∧
      (bibtex_main_model e).ret = e.finalHistory := by
    cases r with
    | ok h =>
      cases h with
      | Spotless => simp [bibtex_main_model, hi]
      | WarningIssued => exact absurd hlc (by simp [bibtex_main_model, hi])
      | ErrorIssued => exact absurd hlc (by simp [bibtex_main_model, hi])
      | FatalError => exact absurd hlc (by simp [bibtex_main_model, hi])
    | error err => cases err <;> simp [bibtex_main_model, hi]
  obtain ⟨hsum, hret⟩ := hkey
  refine ⟨hret, ?_, ?_, ?_, ?_, ?_, ?_, ?_⟩
  · intro h; rw [hsum, h]; rfl
  · intro h h1; rw [hsum, h]; simp [summaryLines, h1]
  · intro h h1; rw [hsum, h]; simp [summaryLines, h1]
  · intro h h1; rw [hsum, h]; simp [summaryLines, h1]
  · intro h h1; rw [hsum, h]; simp [summaryLines, h1]
  · intro h; rw [hsum, h]; rfl
  · rintro (h | h) <;> rw [hsum, h] <;> simp [summaryLines] <;> split <;> simp

/-- Witness for C5 (amended): a run whose final history records two warnings
appends exactly the plural warning-count line. -/
theorem summary_line_shapes_witness :
    (bibtex_main_model envWarn).logClosed = true ∧
    (bibtex_main_model envWarn).ret = History.WarningIssued ∧
    (bibtex_main_model envWarn).summary = [manyWarningsLine 2] ∧
    (bibtex_main_model envWarn).summary.length = 1 := by
  have h := summary_line_shapes envWarn (by decide)
  exact ⟨by decide, h.1, h.2.2.2.1 rfl (by decide), h.2.2.2.2.2.2.2 (Or.inl rfl)⟩

/-- C10: with the aux, log and result files all opened, interning the full
aux file name dispatches on the `exists` flag: an already-present name logs
"Already encountered auxiliary file" (plus `print_confusion`) and returns
`Err(BibtexError::Fatal)`; a fresh name returns `Ok(0)` with no
diagnostic. -/
theorem aux_name_intern_dispatch (fe : FileEnv) (p q : PoolHash) (s : List Nat)
    (r : LookupRes)
    (ha : fe.auxOpenOk = true) (hl : fe.logOpenOk = true) (hb : fe.bblOpenOk = true)
    (hlk : lookup_str_insert p s StrIlk.AuxFile = (q, Except.ok r)) :
    (r.exists' = true →
      (get_the_top_level_aux_file_name fe p s).res = Except.error BibtexError.Fatal ∧
      (get_the_top_level_aux_file_name fe p s).msgs =
        [Msg.alreadyEncounteredAux, Msg.confusionMsg]) ∧
    (r.exists' = false →
      (get_the_top_level_aux_file_name fe p s).res = Except.ok 0 ∧
      (get_the_top_level_aux_file_name fe p s).msgs = []) := by
  constructor <;> intro hex <;>
    simp [get_the_top_level_aux_file_name, ha, hl, hb, hlk, hex]

/-- Witness for C10: both branches at concrete pools — a pool already
holding the aux name (fatal with the duplicate message) and a fresh pool
(returns 0). -/
theorem aux_name_intern_dispatch_witness :
    lookup_str_insert pExAux [97] StrIlk.AuxFile =
      (pExAux, Except.ok { loc := 1, exists' := true }) ∧
    (get_the_top_level_aux_file_name envSpotless.files pExAux [97]).res =
      Except.error BibtexError.Fatal ∧
    (get_the_top_level_aux_file_name envSpotless.files pExAux [97]).msgs =
      [Msg.alreadyEncounteredAux, Msg.confusionMsg] ∧
    lookup_str_insert pExFresh [97] StrIlk.AuxFile =
      (pExAux, Except.ok { loc := 1, exists' := false }) ∧
    (get_the_top_level_aux_file_name envSpotless.files pExFresh [97]).res =
      Except.ok 0 := by
  have h1 : lookup_str_insert pExAux [97] StrIlk.AuxFile =
      (pExAux, Except.ok { loc := 1, exists' := true }) := by decide
  have h2 : lookup_str_insert pExFresh [97] StrIlk.AuxFile =
      (pExAux, Except.ok { loc := 1, exists' := false }) := by decide
  have w1 := aux_name_intern_dispatch envSpotless.files pExAux pExAux [97]
    { loc := 1, exists' := true } rfl rfl rfl h1
  have w2 := aux_name_intern_dispatch envSpotless.files pExFresh pExAux [97]
    { loc := 1, exists' := false } rfl rfl rfl h2
  exact ⟨h1, (w1.1 rfl).1, (w1.1 rfl).2, h2, (w2.2 rfl).1⟩

/-- Counterexample to C3 as stated: in a run whose aux file fails to open,
the wrong-file-name message is printed, but the run returns the fatal
history and `BibtexEngine::process` surfaces it as the unspecified fatal
`Err` — the failure is not kept away from the caller. -/
theorem open_failure_surfaces_err :
    (bibtex_main_model envAuxFail).msgs = [Msg.wrongFileName FileKind.auxFile] ∧
    (bibtex_main_model envAuxFail).ret = History.FatalError ∧
    process_model envAuxFail = Except.error unspecifiedFatalMsg := by decide

/-- C3 (amended): a failure to open the aux, log or result file during
initialization is reported with a wrong-file-name message and aborts the
phase by the orderly error-code return `Ok(1)` — no `BibtexError` is
propagated and the pool is untouched — but the run then ends with the fatal
history (skipping the summary block), which `BibtexEngine::process` surfaces
to the caller as the unspecified fatal `Err`. -/
theorem open_failure_orderly_but_fatal (e : Env) (pool : PoolHash) (f : FileKind)
    (hs : e.stdoutOk = true) (hp : e.predef = Except.ok pool)
    (hfail : openFailure e.files = some f) :
    (get_the_top_level_aux_file_name e.files pool e.auxName).msgs =
      [Msg.wrongFileName f] ∧
    (get_the_top_level_aux_file_name e.files pool e.auxName).res = Except.ok 1 ∧
    (get_the_top_level_aux_file_name e.files pool e.auxName).pool = pool ∧
    (inner_main e).2 = Except.ok History.FatalError ∧
    (bibtex_main_model e).ret = History.FatalError ∧
    (bibtex_main_model e).summary = [] ∧
    (bibtex_main_model e).logClosed = false ∧
    process_model e = Except.error unspecifiedFatalMsg := by
  unfold openFailure at hfail
  have hmain : (get_the_top_level_aux_file_name e.files pool e.auxName).msgs =
        [Msg.wrongFileName f] ∧
      (get_the_top_level_aux_file_name e.files pool e.auxName).res = Except.ok 1 ∧
      (get_the_top_level_aux_file_name e.files pool e.auxName).pool = pool := by
    cases haux : e.files.auxOpenOk with
    | false =>
      rw [haux] at hfail
      simp at hfail
      subst hfail
      simp [get_the_top_level_aux_file_name, haux]
    | true =>
      rw [haux] at hfail
      cases hlog : e.files.logOpenOk with
      | false =>
        rw [hlog] at hfail
        simp at hfail
        subst hfail
        simp [get_the_top_level_aux_file_name, haux, hlog]
      | true =>
        rw [hlog] at hfail
        cases hbbl : e.files.bblOpenOk with
        | false =>
          rw [hbbl] at hfail
          simp at hfail
          subst hfail
          simp [get_the_top_level_aux_file_name, haux, hlog, hbbl]
        | true =>
          rw [hbbl] at hfail
          simp at hfail
  obtain ⟨hm, hr, hpool⟩ := hmain
  have hin : inner_main e = ([Msg.wrongFileName f], Except.ok History.FatalError) := by
    rw [inner_main, hs, hp]
    simp [hr, hm]
  refine ⟨hm, hr, hpool, ?_, ?_, ?_, ?_, ?_⟩
  · rw [hin]
  · simp [bibtex_main_model, hin]
  · simp [bibtex_main_model, hin]
  · simp [bibtex_main_model, hin]
  · simp [process_model, bibtex_main_model, hin, processOutcome]

/-- Witness for C3 (amended): the aux-open-failure environment, with the
reported message, the orderly `Ok(1)` abort, and the fatal `Err` surfaced by
`process`. -/
theorem open_failure_orderly_but_fatal_witness :
    envAuxFail.stdoutOk = true ∧
    envAuxFail.predef = Except.ok pExFresh ∧
    openFailure envAuxFail.files = some FileKind.auxFile ∧
    (get_the_top_level_aux_file_name envAuxFail.files pExFresh envAuxFail.auxName).msgs =
      [Msg.wrongFileName FileKind.auxFile] ∧
    (get_the_top_level_aux_file_name envAuxFail.files pExFresh envAuxFail.auxName).res =
      Except.ok 1 ∧
    (inner_main envAuxFail).2 = Except.ok History.FatalError ∧
    (bibtex_main_model envAuxFail).logClosed = false ∧
    process_model envAuxFail = Except.error unspecifiedFatalMsg := by
  have h := open_failure_orderly_but_fatal envAuxFail pExFresh FileKind.auxFile rfl rfl
    (by decide)
  exact ⟨rfl, rfl, by decide, h.1, h.2.1, h.2.2.2.1, h.2.2.2.2.2.2.1, h.2.2.2.2.2.2.2⟩

/-- C6: interning is idempotent — after a successful `lookup_str_insert` of
some bytes under some ilk, repeating the request leaves the pool unchanged
and returns the same location with the `exists` flag set. -/
theorem intern_idempotent (p : PoolHash) (key : List Nat) (ilk : StrIlk)
    (p' : PoolHash) (r : LookupRes)
    (h : lookup_str_insert p key ilk = (p', Except.ok r)) :
    lookup_str_insert p' key ilk = (p', Except.ok { loc := r.loc, exists' := true }) := by
  unfold lookup_str_insert at h
  split at h
  next heq => simp at h
  next pos heq =>
    simp only [Prod.mk.injEq, Except.ok.injEq] at h
    obtain ⟨h1, h2⟩ := h
    subst h1
    subst h2
    simp [lookup_str_insert, heq]
  next pos heq =>
    split at h
    next hcap => simp at h
    next hcap =>
      simp only [Prod.mk.injEq, Except.ok.injEq] at h
      obtain ⟨h1, h2⟩ := h
      subst h1
      subst h2
      have hps := probe_set_found p.slots key ilk p.strPtr
        p.slots.length (strHash key p.hashPrime) pos heq
      simp [lookup_str_insert, List.length_set, hps]

/-- Witness for C6: interning `[97]` into a fresh pool and then repeating
the request returns the same location with `exists' = true` and the pool
unchanged. -/
theorem intern_idempotent_witness :
    lookup_str_insert pExFresh [97] StrIlk.Text =
      (pExIns, Except.ok { loc := 1, exists' := false }) ∧
    lookup_str_insert pExIns [97] StrIlk.Text =
      (pExIns, Except.ok { loc := 1, exists' := true }) := by
  have h : lookup_str_insert pExFresh [97] StrIlk.Text =
      (pExIns, Except.ok { loc := 1, exists' := false }) := by decide
  exact ⟨h, intern_idempotent pExFresh [97] StrIlk.Text pExIns
    { loc := 1, exists' := false } h⟩

/-- C7: a failed interning request leaves the pool unchanged (no partial or
inconsistent string id), and when interning the aux file name fails during
initialization the error is propagated as `BibtexError::Fatal` through
`get_the_top_level_aux_file_name` and `inner_bibtex_main`; `bibtex_main`
still reaches the end-of-run reporting. -/
theorem capacity_error_fatal (q q' : PoolHash) (s2 : List Nat) (k2 : StrIlk)
    (err2 : PoolErr) (p p2 : PoolHash) (s : List Nat) (err : PoolErr) (e : Env)
    (hgen : lookup_str_insert q s2 k2 = (q', Except.error err2))
    (hlk : lookup_str_insert p s StrIlk.AuxFile = (p2, Except.error err))
    (hs : e.stdoutOk = true) (hp : e.predef = Except.ok p)
    (ha : e.files.auxOpenOk = true) (hl : e.files.logOpenOk = true)
    (hb : e.files.bblOpenOk = true) (hn : e.auxName = s) :
    q' = q ∧
    (get_the_top_level_aux_file_name e.files p s).res = Except.error BibtexError.Fatal ∧
    (inner_main e).2 = Except.error BibtexError.Fatal ∧
    (bibtex_main_model e).logClosed = true := by
  have hqq : q' = q := by
    unfold lookup_str_insert at hgen
    split at hgen
    next heq =>
      simp only [Prod.mk.injEq] at hgen
      exact hgen.1.symm
    next pos heq => simp at hgen
    next pos heq =>
      split at hgen
      next hcap =>
        simp only [Prod.mk.injEq] at hgen
        exact hgen.1.symm
      next hcap => simp at hgen
  have htop : (get_the_top_level_aux_file_name e.files p s).res =
      Except.error BibtexError.Fatal := by
    simp [get_the_top_level_aux_file_name, ha, hl, hb, hlk]
  have hin : inner_main e = ([], Except.error BibtexError.Fatal) := by
    rw [inner_main, hs, hp]
    simp [hn, get_the_top_level_aux_file_name, ha, hl, hb, hlk]
  exact ⟨hqq, htop, by rw [hin], by simp [bibtex_main_model, hin]⟩

/-- Witness for C7: a pool at its string-capacity ceiling rejects the fresh
aux name; the pool is unchanged and the run fails fatally. -/
theorem capacity_error_fatal_witness :
    lookup_str_insert pExFull [97] StrIlk.AuxFile =
      (pExFull, Except.error PoolErr.capacity) ∧
    (get_the_top_level_aux_file_name envCapacity.files pExFull [97]).res =
      Except.error BibtexError.Fatal ∧
    (inner_main envCapacity).2 = Except.error BibtexError.Fatal ∧
    (bibtex_main_model envCapacity).logClosed = true := by
  have h : lookup_str_insert pExFull [97] StrIlk.AuxFile =
      (pExFull, Except.error PoolErr.capacity) := by decide
  have hm := capacity_error_fatal pExFull pExFull [97] StrIlk.AuxFile PoolErr.capacity
    pExFull pExFull [97] PoolErr.capacity envCapacity h h rfl rfl rfl rfl rfl rfl
  exact ⟨h, hm.2.1, hm.2.2.1, hm.2.2.2⟩

/-- C4: under the compile-time assertions of `lib.rs` the bucket count
(`HASH_SIZE`) is at least the string capacity (`MAX_STRINGS`), and for a
bucket array of that size an interning request can only fail once the
string-capacity ceiling has been reached — the hash table is never the
resource exhausted before the string capacity is. -/
theorem hash_not_limiting_resource (c : Capacities) (p : PoolHash) (key : List Nat)
    (ilk : StrIlk) (p' : PoolHash) (err : PoolErr)
    (hca : constAssertions c)
    (hlen : p.slots.length = c.HASH_SIZE)
    (hmax : p.maxStrings = c.MAX_STRINGS)
    (hprime : p.hashPrime = c.HASH_PRIME)
    (hocc : countOccupied p.slots ≤ p.strPtr)
    (herr : lookup_str_insert p key ilk = (p', Except.error err)) :
    c.MAX_STRINGS ≤ c.HASH_SIZE ∧ p.maxStrings ≤ p.strPtr := by
  obtain ⟨h1, h2, h3, h4, h5, h6, h7⟩ := hca
  refine ⟨h6, ?_⟩
  by_contra hlt
  push_neg at hlt
  have hppos : 0 < p.hashPrime := by omega
  have hstart : strHash key p.hashPrime < p.slots.length := by
    have hsh := strHash_lt key p.hashPrime hppos
    omega
  have hoc : countOccupied p.slots < p.slots.length := by omega
  obtain ⟨i, hi, hie⟩ := exists_empty_slot p.slots hoc
  obtain ⟨k, hk, hkeq⟩ := exists_probe_index p.slots.length
    (strHash key p.hashPrime) i hstart hi
  have hhit : probeHit p.slots key ilk
      ((strHash key p.hashPrime + k) % p.slots.length) = true := by
    rw [hkeq]
    exact probeHit_of_empty p.slots key ilk i hie
  have hsome := probe_isSome_of_hit p.slots key ilk p.slots.length
    (strHash key p.hashPrime) hstart ⟨k, hk, hhit⟩
  unfold lookup_str_insert at herr
  split at herr
  next heq =>
    rw [heq] at hsome
    simp at hsome
  next pos heq => simp at herr
  next pos heq =>
    split at herr
    next hcap => omega
    next hcap => simp at herr

/-- Witness for C4: explicit capacity constants satisfying all compile-time
assertions, and a pool of that shape whose only possible interning failure
is the string-capacity ceiling. -/
theorem hash_not_limiting_resource_witness :
    constAssertions cEx ∧
    pExFull.slots.length = cEx.HASH_SIZE ∧
    pExFull.maxStrings = cEx.MAX_STRINGS ∧
    pExFull.hashPrime = cEx.HASH_PRIME ∧
    countOccupied pExFull.slots ≤ pExFull.strPtr ∧
    lookup_str_insert pExFull [97] StrIlk.AuxFile =
      (pExFull, Except.error PoolErr.capacity) ∧
    cEx.MAX_STRINGS ≤ cEx.HASH_SIZE ∧ pExFull.maxStrings ≤ pExFull.strPtr := by
  have hca : constAssertions cEx := by decide
  have hlen : pExFull.slots.length = cEx.HASH_SIZE := by decide
  have hmax : pExFull.maxStrings = cEx.MAX_STRINGS := by decide
  have hprime : pExFull.hashPrime = cEx.HASH_PRIME := by decide
  have hocc : countOccupied pExFull.slots ≤ pExFull.strPtr := by decide
  have herr : lookup_str_insert pExFull [97] StrIlk.AuxFile =
      (pExFull, Except.error PoolErr.capacity) := by decide
  have hm := hash_not_limiting_resource cEx pExFull [97] StrIlk.AuxFile pExFull
    PoolErr.capacity hca hlen hmax hprime hocc herr
  exact ⟨hca, hlen, hmax, hprime, hocc, herr, hm.1, hm.2⟩
